import Mathlib

/-!
Shallow embedding of the MQTT connection-lifecycle state machine and
message ingestion/normalization pipeline of `src/contexts/MqttContext.tsx`
(MQTT Data Visualizer).  Machine floats (JS numbers) are modelled by an
extended-rational type `JsNum` (finite rationals plus the IEEE special
values Infinity, -Infinity and NaN); the small decimal literals appearing
in the claims are represented exactly by rationals, so double rounding is
irrelevant for every statement proved here.  React state updates
(`setConnectionStatus` etc.) and the mirroring ref
`connectionStatusRef` are modelled as an immediately-updated record,
following the single-writer event model of the source: each transport
event handler runs to completion before the next event is processed.
-/

namespace Studio

/-- `MqttConnectionStatus` from `mqtt-status-indicator.tsx`:
`"disconnected" | "connecting" | "connected" | "error"`. -/
inductive ConnStatus where
  | disconnected
  | connecting
  | connected
  | error
deriving DecidableEq, Repr

/-- A JavaScript number as produced by `parseFloat` / JSON number literals:
either a finite value (modelled exactly as a rational) or one of the
IEEE-754 special values.  Overflow of huge decimal literals to `Infinity`
is not modelled (no claim exercises literals outside double range). -/
inductive JsNum where
  | finite (q : ℚ)
  | inf
  | negInf
  | nan
deriving DecidableEq, Repr

/-- `isNaN(x)` for a JS number. -/
def JsNum.isNaN : JsNum → Bool
  | .nan => true
  | _ => false

/-- `DataPoint` from `MqttContext.tsx` lines 15-18:
`{ timestamp: number; values: Record<string, number> }`.
The record of sensor values is kept as an association list in the
JS property order of the source object; keys are unique. -/
structure DataPoint where
  timestamp : ℕ
  values : List (String × JsNum)
deriving DecidableEq, Repr

/-- `MAX_DATA_POINTS` (`MqttContext.tsx` line 12). -/
def MAX_DATA_POINTS : ℕ := 200

/-- `HARDCODED_TOPIC` (`MqttContext.tsx` line 13). -/
def HARDCODED_TOPIC : String := "/TFT/Response"

/-- The `setDataPoints` updater used by every accepting branch of the
message handler (`MqttContext.tsx` lines 163-167, 180-184, 190-194):
append the new point, then `updatedData.slice(-MAX_DATA_POINTS)` when the
length exceeds `MAX_DATA_POINTS` (keep the trailing `MAX_DATA_POINTS`
entries). -/
def pushPoint (prevData : List DataPoint) (p : DataPoint) : List DataPoint :=
  let updatedData := prevData ++ [p]
  if updatedData.length > MAX_DATA_POINTS then
    updatedData.drop (updatedData.length - MAX_DATA_POINTS)
  else
    updatedData

theorem pushPoint_drop (ps : List DataPoint) (p : DataPoint) :
    pushPoint (ps.drop (ps.length - MAX_DATA_POINTS)) p
      = (ps ++ [p]).drop ((ps.length + 1) - MAX_DATA_POINTS) := by
  unfold pushPoint
  rcases Nat.lt_or_ge ps.length MAX_DATA_POINTS with hlt | hge
  · have h0 : ps.length - MAX_DATA_POINTS = 0 := Nat.sub_eq_zero_of_le (Nat.le_of_lt hlt)
    have h1 : (ps.length + 1) - MAX_DATA_POINTS = 0 := Nat.sub_eq_zero_of_le hlt
    simp only [h0, List.drop_zero, h1]
    have hlen : (ps ++ [p]).length = ps.length + 1 := by simp
    rw [if_neg]
    rw [hlen]
    omega
  · have hdlen : (ps.drop (ps.length - MAX_DATA_POINTS)).length = MAX_DATA_POINTS := by
      rw [List.length_drop]
      omega
    have hlen : (ps.drop (ps.length - MAX_DATA_POINTS) ++ [p]).length
        = MAX_DATA_POINTS + 1 := by
      rw [List.length_append, hdlen]; rfl
    rw [if_pos]
    · rw [hlen]
      have h2 : MAX_DATA_POINTS + 1 - MAX_DATA_POINTS = 1 := by omega
      rw [h2]
      have h3 : (1 : ℕ) ≤ (ps.drop (ps.length - MAX_DATA_POINTS)).length := by
        rw [hdlen]; norm_num [MAX_DATA_POINTS]
      rw [List.drop_append_of_le_length h3, List.drop_drop]
      have h4 : (ps.length + 1) - MAX_DATA_POINTS = (1 + (ps.length - MAX_DATA_POINTS)) := by
        omega
      have h5 : (1 + (ps.length - MAX_DATA_POINTS)) ≤ ps.length := by
        unfold MAX_DATA_POINTS at *
        omega
      rw [h4, List.drop_append_of_le_length h5, Nat.add_comm]
    · rw [hlen]; omega

theorem foldl_pushPoint_eq_drop (ps : List DataPoint) :
    ps.foldl pushPoint [] = ps.drop (ps.length - MAX_DATA_POINTS) := by
  induction ps using List.reverseRecOn with
  | nil => simp
  | append_singleton ps p ih =>
    rw [List.foldl_append, List.foldl_cons, List.foldl_nil, ih, pushPoint_drop]
    simp

/-- C1: for every sequence of pushes into the Sample Window starting from
the empty window, the resulting window has length at most
`MAX_DATA_POINTS = 200`, and its contents are exactly the last
`MAX_DATA_POINTS` pushed points, in push (arrival) order.  Since the
statement quantifies over all push sequences, it holds in particular after
each individual push of a longer run. -/
theorem window_bound_last_n (ps : List DataPoint) :
    (ps.foldl pushPoint []).length ≤ MAX_DATA_POINTS ∧
      ps.foldl pushPoint [] = ps.drop (ps.length - MAX_DATA_POINTS) := by
  refine ⟨?_, foldl_pushPoint_eq_drop ps⟩
  rw [foldl_pushPoint_eq_drop ps, List.length_drop]
  omega

/-! JSON values as produced by `JSON.parse`.  Object fields are kept as an
association list with unique keys, in JS property-creation order (a
duplicate key in the source text overwrites the value but keeps the first
position, as in JavaScript).  Numbers are exact rationals (see `JsNum`). -/

inductive Json where
  | null
  | bool (b : Bool)
  | num (q : ℚ)
  | str (s : String)
  | arr (elems : List Json)
  | obj (fields : List (String × Json))

/-- JSON whitespace (space, tab, newline, carriage return) skipped by
`JSON.parse` between tokens. -/
def skipWsJson : List Char → List Char
  | [] => []
  | c :: cs =>
    if c = ' ' ∨ c = Char.ofNat 9 ∨ c = Char.ofNat 10 ∨ c = Char.ofNat 13 then
      skipWsJson cs
    else c :: cs

/-- Longest prefix of decimal digits. -/
def takeDigits : List Char → List Char × List Char
  | [] => ([], [])
  | c :: cs =>
    if c.isDigit then
      let (ds, rest) := takeDigits cs
      (c :: ds, rest)
    else ([], c :: cs)

/-- Value of a digit string (most significant first). -/
def digitsToNat (ds : List Char) : ℕ :=
  ds.foldl (fun n c => n * 10 + (c.toNat - 48)) 0

/-- The exact value `sign * m * 10^e` as a rational: the mathematical value
of a decimal literal with integer mantissa `m` and decimal exponent `e`. -/
def jsDecimal (sign : ℤ) (m : ℕ) (e : ℤ) : ℚ :=
  if 0 ≤ e then mkRat (sign * (m : ℤ) * ((10 : ℤ) ^ e.toNat)) 1
  else mkRat (sign * (m : ℤ)) (10 ^ (-e).toNat)

/-- Value of a hexadecimal digit, if any. -/
def hexVal (c : Char) : Option ℕ :=
  if c.isDigit then some (c.toNat - 48)
  else if 'a' ≤ c ∧ c ≤ 'f' then some (c.toNat - 87)
  else if 'A' ≤ c ∧ c ≤ 'F' then some (c.toNat - 55)
  else none

/-- Single-character JSON string escapes. -/
def escChar : Char → Option Char
  | '"' => some '"'
  | '\\' => some '\\'
  | '/' => some '/'
  | 'b' => some (Char.ofNat 8)
  | 'f' => some (Char.ofNat 12)
  | 'n' => some (Char.ofNat 10)
  | 'r' => some (Char.ofNat 13)
  | 't' => some (Char.ofNat 9)
  | _ => none

/-- Body of a JSON string literal (the opening quote already consumed):
returns the decoded characters and the remaining input.  Unescaped control
characters are rejected, as in `JSON.parse`.  A `\u` escape yields the
code unit directly (surrogate pairing is not modelled; no claim uses
non-BMP text). -/
def parseStrChars : List Char → Option (List Char × List Char)
  | [] => none
  | c :: cs =>
    if c = '"' then some ([], cs)
    else if c = '\\' then
      match cs with
      | [] => none
      | e :: cs2 =>
        if e = 'u' then
          match cs2 with
          | a :: b :: c3 :: d :: cs3 =>
            match hexVal a, hexVal b, hexVal c3, hexVal d with
            | some ha, some hb, some hc, some hd =>
              match parseStrChars cs3 with
              | some (s, r) => some (Char.ofNat (((ha * 16 + hb) * 16 + hc) * 16 + hd) :: s, r)
              | none => none
            | _, _, _, _ => none
          | _ => none
        else
          match escChar e with
          | some ec =>
            match parseStrChars cs2 with
            | some (s, r) => some (ec :: s, r)
            | none => none
          | none => none
    else if c.toNat < 32 then none
    else
      match parseStrChars cs with
      | some (s, r) => some (c :: s, r)
      | none => none

/-- A JSON number literal at the head of the input, per the strict JSON
grammar: `-? (0 | [1-9][0-9]*) (. [0-9]+)? ([eE][+-]?[0-9]+)?`. -/
def parseJNum (cs : List Char) : Option (ℚ × List Char) :=
  let (sgn, cs1) : ℤ × List Char :=
    match cs with
    | '-' :: r => (-1, r)
    | _ => (1, cs)
  match cs1 with
  | [] => none
  | c :: _ =>
    if ¬ c.isDigit then none
    else
      let (intDs, cs2) := takeDigits cs1
      if intDs.length > 1 ∧ intDs.headI = '0' then none
      else
        let (fracDs, cs3) : List Char × List Char :=
          match cs2 with
          | '.' :: r => takeDigits r
          | _ => ([], cs2)
        if (cs2.headI = '.' ∧ cs2 ≠ [] ∧ fracDs = []) then none
        else
          let afterFrac := if cs2.headI = '.' ∧ cs2 ≠ [] then cs3 else cs2
          match afterFrac with
          | e :: r1 =>
            if e = 'e' ∨ e = 'E' then
              let (esgn, r2) : ℤ × List Char :=
                match r1 with
                | '-' :: rr => (-1, rr)
                | '+' :: rr => (1, rr)
                | _ => (1, r1)
              let (expDs, r3) := takeDigits r2
              if expDs = [] then none
              else
                some (jsDecimal sgn (digitsToNat (intDs ++ fracDs))
                       (esgn * (digitsToNat expDs : ℤ) - (fracDs.length : ℤ)), r3)
            else
              some (jsDecimal sgn (digitsToNat (intDs ++ fracDs)) (-(fracDs.length : ℤ)),
                    afterFrac)
          | [] =>
            some (jsDecimal sgn (digitsToNat (intDs ++ fracDs)) (-(fracDs.length : ℤ)), [])

/-- JS object-field update used while parsing an object: a duplicate key
overwrites the value in place (keeping the first position); a new key is
appended. -/
def insertField (fields : List (String × Json)) (k : String) (v : Json) :
    List (String × Json) :=
  if fields.any (fun kv => kv.1 = k) then
    fields.map (fun kv => if kv.1 = k then (k, v) else kv)
  else fields ++ [(k, v)]

mutual

/-- A JSON value at the head of the input (fuel-indexed recursive-descent;
the fuel is an upper bound on nesting, one unit per consumed character). -/
def parseVal (fuel : ℕ) (cs : List Char) : Option (Json × List Char) :=
  match fuel with
  | 0 => none
  | fuel + 1 =>
    match skipWsJson cs with
    | [] => none
    | c :: cs1 =>
      if c = '"' then
        match parseStrChars cs1 with
        | some (s, r) => some (.str (String.mk s), r)
        | none => none
      else if c = '{' then
        match skipWsJson cs1 with
        | '}' :: r => some (.obj [], r)
        | cs2 => parseObjFields fuel cs2 []
      else if c = '[' then
        match skipWsJson cs1 with
        | ']' :: r => some (.arr [], r)
        | cs2 => parseArrElems fuel cs2 []
      else
        match c :: cs1 with
        | 't' :: 'r' :: 'u' :: 'e' :: r => some (.bool true, r)
        | 'f' :: 'a' :: 'l' :: 's' :: 'e' :: r => some (.bool false, r)
        | 'n' :: 'u' :: 'l' :: 'l' :: r => some (.null, r)
        | cs2 =>
          match parseJNum cs2 with
          | some (q, r) => some (.num q, r)
          | none => none

/-- Fields of a JSON object after the opening brace (at least one field
expected; the empty object is handled by `parseVal`). -/
def parseObjFields (fuel : ℕ) (cs : List Char) (acc : List (String × Json)) :
    Option (Json × List Char) :=
  match fuel with
  | 0 => none
  | fuel + 1 =>
    match skipWsJson cs with
    | '"' :: cs1 =>
      match parseStrChars cs1 with
      | some (k, cs2) =>
        match skipWsJson cs2 with
        | ':' :: cs3 =>
          match parseVal fuel cs3 with
          | some (v, cs4) =>
            match skipWsJson cs4 with
            | ',' :: cs5 => parseObjFields fuel cs5 (insertField acc (String.mk k) v)
            | '}' :: cs5 => some (.obj (insertField acc (String.mk k) v), cs5)
            | _ => none
          | none => none
        | _ => none
      | none => none
    | _ => none

/-- Elements of a JSON array after the opening bracket (at least one
element expected; the empty array is handled by `parseVal`). -/
def parseArrElems (fuel : ℕ) (cs : List Char) (acc : List Json) :
    Option (Json × List Char) :=
  match fuel with
  | 0 => none
  | fuel + 1 =>
    match parseVal fuel cs with
    | some (v, cs1) =>
      match skipWsJson cs1 with
      | ',' :: cs2 => parseArrElems fuel cs2 (acc ++ [v])
      | ']' :: cs2 => some (.arr (acc ++ [v]), cs2)
      | _ => none
    | none => none

end

/-- `JSON.parse` on a payload string: a single JSON value spanning the
whole input (modulo surrounding whitespace); `none` models the thrown
`SyntaxError`. -/
def jsonParse (s : String) : Option Json :=
  match parseVal (s.length + 2) s.data with
  | some (j, rest) => if skipWsJson rest = [] then some j else none
  | none => none

/-- Fuel-bounded division count (structural recursion so that concrete
runs reduce inside the kernel). -/
def countFactorAux (p : ℕ) : ℕ → ℕ → ℕ
  | 0, _ => 0
  | fuel + 1, n =>
    if 1 < p ∧ 0 < n ∧ n % p = 0 then countFactorAux p fuel (n / p) + 1 else 0

/-- Largest `k` with `p ^ k ∣ n` (for `1 < p`, `0 < n`; `0` otherwise):
`n` itself bounds the number of divisions. -/
def countFactor (p n : ℕ) : ℕ := countFactorAux p n n

/-- Number-to-String for the finite JS numbers reachable in this model:
exact decimal expansion (all values produced by the JSON / `parseFloat`
grammars have denominator `2^a * 5^b`, hence a terminating expansion, and
an integer prints without a decimal point, as in JS).  The JS switch to
exponent notation at `1e21` / `1e-7` is not modelled; no claim stringifies
such values. -/
def numToString (q : ℚ) : String :=
  let sgn := if q < 0 then "-" else ""
  let n := q.num.natAbs
  let d := q.den
  let k := max (countFactor 2 d) (countFactor 5 d)
  let m := n * 10 ^ k / d
  let s := toString m
  let s := if s.length < k + 1 then String.mk (List.replicate (k + 1 - s.length) '0') ++ s else s
  let ip := s.take (s.length - k)
  let fp := String.mk ((s.drop (s.length - k)).data.reverse.dropWhile (fun c => c = '0')).reverse
  sgn ++ ip ++ (if fp = "" then "" else "." ++ fp)

mutual

/-- `Array.prototype.join(",")` over the rendered elements, used by JS
`String()` on an array; a `null` element renders as the empty string. -/
def jsArrElems : List Json → String
  | [] => ""
  | [x] => jsArrElem x
  | x :: xs => jsArrElem x ++ "," ++ jsArrElems xs

/-- One array element under `join`: `null` renders empty, anything else by
its `String()` conversion. -/
def jsArrElem : Json → String
  | .null => ""
  | .bool true => "true"
  | .bool false => "false"
  | .num q => numToString q
  | .str s => s
  | .arr xs => jsArrElems xs
  | .obj _ => "[object Object]"

end

/-- JS `String(v)` for a parsed JSON value. -/
def jsToString : Json → String
  | .null => "null"
  | .bool true => "true"
  | .bool false => "false"
  | .num q => numToString q
  | .str s => s
  | .arr xs => jsArrElems xs
  | .obj _ => "[object Object]"

/-- JS whitespace skipped by `parseFloat` (space and the ASCII control
whitespace range TAB..CR). -/
def skipWsJs : List Char → List Char
  | [] => []
  | c :: cs => if c = ' ' ∨ (9 ≤ c.toNat ∧ c.toNat ≤ 13) then skipWsJs cs else c :: cs

/-- ECMAScript `parseFloat`: trim leading whitespace, then the longest
prefix matching `[+-]? (Infinity | digits (. digits?)? | . digits)
([eE][+-]?digits)?`; `NaN` if no prefix matches.  Trailing garbage is
ignored.  `Infinity` (exact capitalization) parses to the infinite
values; overflow of finite literals beyond double range is not modelled. -/
def parseFloat (s : String) : JsNum :=
  let cs0 := skipWsJs s.data
  let (sgn, cs) : ℤ × List Char :=
    match cs0 with
    | '-' :: r => (-1, r)
    | '+' :: r => (1, r)
    | _ => (1, cs0)
  match cs with
  | 'I' :: 'n' :: 'f' :: 'i' :: 'n' :: 'i' :: 't' :: 'y' :: _ =>
    if sgn = 1 then .inf else .negInf
  | _ =>
    let (d1, cs1) := takeDigits cs
    let csAfterDot : List Char :=
      match cs1 with
      | '.' :: r => r
      | _ => cs1
    let (d2, cs2) := takeDigits csAfterDot
    if d1 = [] ∧ d2 = [] then .nan
    else
      let e : ℤ :=
        match cs2 with
        | c :: r1 =>
          if c = 'e' ∨ c = 'E' then
            let (esgn, r2) : ℤ × List Char :=
              match r1 with
              | '-' :: rr => (-1, rr)
              | '+' :: rr => (1, rr)
              | _ => (1, r1)
            let (ed, _) := takeDigits r2
            if ed = [] then 0 else esgn * (digitsToNat ed : ℤ)
          else 0
        | [] => 0
      .finite (jsDecimal sgn (digitsToNat (d1 ++ d2)) (e - (d2.length : ℤ)))

/-- `parseFloat(String(v))`, the numeric coercion applied to each
`tftvalue` entry (line 154 of `MqttContext.tsx`). -/
def coerce (v : Json) : JsNum := parseFloat (jsToString v)

/-- Canonical array-index property keys (all digits, no superfluous
leading zero, below `2^32 - 1`): these are enumerated first, in ascending
numeric order, by JS `for...in` / `Object.values`. -/
def isArrayIndexKey (s : String) : Bool :=
  !s.data.isEmpty && s.data.all (fun c => c.isDigit) &&
    (s == "0" || s.data.headI != '0') && decide (digitsToNat s.data < 4294967295)

/-- Insert into a list sorted by numeric key value. -/
def insertByIndex (x : String × Json) : List (String × Json) → List (String × Json)
  | [] => [x]
  | y :: ys =>
    if digitsToNat x.1.data ≤ digitsToNat y.1.data then x :: y :: ys
    else y :: insertByIndex x ys

/-- JS own-property enumeration order: array-index keys in ascending
numeric order first, then the remaining keys in insertion order. -/
def orderKeys (fields : List (String × Json)) : List (String × Json) :=
  let idx := fields.filter (fun kv => isArrayIndexKey kv.1)
  let rest := fields.filter (fun kv => !isArrayIndexKey kv.1)
  (idx.foldl (fun acc kv => insertByIndex kv acc) []) ++ rest

/-- Property access `j.k` on a parsed JSON value: `none` models
`undefined` (arrays and primitives have none of the properties the
handler reads; access on `null` is handled at the call sites, where it
throws). -/
def getProp (j : Json) (k : String) : Option Json :=
  match j with
  | .obj fields => fields.lookup k
  | _ => none

/-- JS truthiness of a parsed JSON value. -/
def truthy : Json → Bool
  | .null => false
  | .bool b => b
  | .num q => decide (q ≠ 0)
  | .str s => decide (s ≠ "")
  | .arr _ => true
  | .obj _ => true

/-- `typeof v === 'object'` for a parsed JSON value (true for `null`,
arrays and objects). -/
def isObjectType : Json → Bool
  | .null => true
  | .arr _ => true
  | .obj _ => true
  | _ => false

/-- The `for...in` enumeration of `jsonData.tftvalue` (own enumerable
entries; `hasOwnProperty` always holds for them). -/
def forInEntries : Json → List (String × Json)
  | .obj fields => orderKeys fields
  | .arr xs => xs.enum.map (fun p => (toString p.1, p.2))
  | _ => []

/-- `Object.values(j)` in property-enumeration order. -/
def objectValues : Json → List Json
  | .obj fields => (orderKeys fields).map (fun kv => kv.2)
  | .arr xs => xs
  | _ => []

/-- The guard of line 149:
`jsonData && typeof jsonData.tftvalue === 'object' && jsonData.tftvalue !== null`;
returns the matched `tftvalue` (an array also has `typeof 'object'`). -/
def tftObject (j : Json) : Option Json :=
  if truthy j then
    match getProp j ("tftvalue") with
    | some (.arr xs) => some (.arr xs)
    | some (.obj fields) => some (.obj fields)
    | _ => none
  else none

/-- Lines 150-160: coerce every `tftvalue` entry with
`parseFloat(String(...))` and keep exactly the non-NaN results, in
enumeration order. -/
def sensorFields (t : Json) : List (String × JsNum) :=
  (forInEntries t).filterMap (fun kv =>
    match coerce kv.2 with
    | .nan => none
    | v => some (kv.1, v))

/-- Lines 169-186, the scalar fallback chain: `jsonData.value` if numeric,
else a bare JSON number, else the first numeric entry of
`Object.values(jsonData)`.  Accessing `.value` on JSON `null` throws a
TypeError (`Except.error`), transferring control to the catch block. -/
def scalarBranch (j : Json) : Except Unit (Option ℚ) :=
  match j with
  | .null => .error ()
  | _ =>
    match getProp j ("value") with
    | some (.num q) => .ok (some q)
    | _ =>
      match j with
      | .num q => .ok (some q)
      | _ =>
        if isObjectType j then
          .ok ((objectValues j).filterMap (fun v =>
            match v with
            | .num q => some q
            | _ => none)).head?
        else .ok none

/-- The try-block of the message handler on a successfully parsed JSON
value: the multi-field `tftvalue` path takes precedence (pushing only when
at least one entry coerces, `hasNumericValue`); otherwise the scalar chain
runs, pushing a single field named `value` when it found a non-NaN
number. -/
def jsonBranch (j : Json) : Except Unit (Option (List (String × JsNum))) :=
  match tftObject j with
  | some t =>
    if (sensorFields t).isEmpty then .ok none else .ok (some (sensorFields t))
  | none =>
    match scalarBranch j with
    | .error e => .error e
    | .ok none => .ok none
    | .ok (some q) =>
      if (JsNum.finite q).isNaN then .ok none else .ok (some [("value", .finite q)])

/-- The catch-block fallback of lines 187-196: `parseFloat` on the raw
payload text, accepted unless `NaN`. -/
def rawFallback (messageStr : String) : Option (List (String × JsNum)) :=
  match parseFloat messageStr with
  | .nan => none
  | v => some [("value", v)]

/-- The `client.on("message")` payload-to-sample pipeline of lines
143-196: the values record of the pushed `DataPoint`, or `none` when the
message yields no sample.  The fire-and-forget `saveMqttData` forward of
lines 198-214 never touches the window and is outside this model. -/
def messageHandler (messageStr : String) : Option (List (String × JsNum)) :=
  match jsonParse messageStr with
  | some j =>
    match jsonBranch j with
    | .ok r => r
    | .error _ => rawFallback messageStr
  | none => rawFallback messageStr

/-- `ConnectFormValues` from `mqtt-connect-form.tsx` as consumed by
`connectMqtt` (line 89): broker URL and credentials; it carries no topic. -/
structure ConnectFormValues where
  brokerUrl : String
  username : String
  password : String
deriving DecidableEq, Repr

/-- The provider state of `MqttContext.tsx`: the React state cells
(`connectionStatus`, `currentTopic`, `dataPoints`, `mqttClient` as
`hasClient`/`clientConnected`), the refs (`mqttModuleRef` as
`moduleLoaded`/`connectAvailable`, `isManuallyDisconnectingRef` as
`manualDisconnect`; `connectionStatusRef` mirrors `connectionStatus` and
is not duplicated), plus two instrumentation fields: the topics passed to
`client.subscribe` and the number of connection-established toasts. -/
structure MqttState where
  moduleLoaded : Bool
  connectAvailable : Bool
  connectionStatus : ConnStatus
  currentTopic : Option String
  dataPoints : List DataPoint
  hasClient : Bool
  clientConnected : Bool
  manualDisconnect : Bool
  subscribeTopics : List String
  connectToasts : ℕ
deriving DecidableEq, Repr

/-- The initial provider state (lines 34-50): everything empty,
`disconnected`, transport module not yet loaded. -/
def initialState : MqttState :=
  { moduleLoaded := false
    connectAvailable := false
    connectionStatus := .disconnected
    currentTopic := none
    dataPoints := []
    hasClient := false
    clientConnected := false
    manualDisconnect := false
    subscribeTopics := []
    connectToasts := 0 }

/-- `client.on("connect")` (lines 126-141): the status update and the
connection toast are guarded by
`connectionStatusRef.current !== "connected"`, but
`client.subscribe(HARDCODED_TOPIC, ...)` is issued unconditionally on
every connect event.  The acknowledgement of the subscription arrives
later (`onSubAck`).  The transport marks the client connected. -/
def onConnect (s : MqttState) : MqttState :=
  let s1 :=
    if s.connectionStatus ≠ .connected then
      { s with connectionStatus := .connected
               connectToasts := s.connectToasts + 1
               clientConnected := true }
    else { s with clientConnected := true }
  { s1 with subscribeTopics := s1.subscribeTopics ++ [HARDCODED_TOPIC] }

/-- The subscription callback (lines 131-140): on failure the status
becomes `error` and the client is force-closed (`client.end(true)`). -/
def onSubAck (ok : Bool) (s : MqttState) : MqttState :=
  if ok then s
  else { s with connectionStatus := .error, clientConnected := false }

/-- `client.on("error")` (lines 217-226): only acts when the status is
not already `error` and no manual disconnect is in flight. -/
def onError (s : MqttState) : MqttState :=
  if s.connectionStatus ≠ .error ∧ s.manualDisconnect = false then
    { s with connectionStatus := .error }
  else s

/-- `client.on("close")` (lines 228-238): under a manual disconnect the
status is normalized to `disconnected` and the handler returns; otherwise
the status becomes `disconnected` unless it is already `error` or
`disconnected`.  The transport marks the client closed. -/
def onClose (s : MqttState) : MqttState :=
  if s.manualDisconnect then
    if s.connectionStatus ≠ .disconnected then
      { s with clientConnected := false, connectionStatus := .disconnected }
    else { s with clientConnected := false }
  else if s.connectionStatus ≠ .error ∧ s.connectionStatus ≠ .disconnected then
    { s with clientConnected := false, connectionStatus := .disconnected }
  else { s with clientConnected := false }

/-- `client.on('offline')` (lines 240-245). -/
def onOffline (s : MqttState) : MqttState :=
  if s.connectionStatus = .connected ∧ s.manualDisconnect = false then
    { s with connectionStatus := .disconnected }
  else s

/-- `client.on('reconnect')` (lines 247-252). -/
def onReconnect (s : MqttState) : MqttState :=
  if s.manualDisconnect = false ∧ s.connectionStatus ≠ .connecting then
    { s with connectionStatus := .connecting }
  else s

/-- `client.on("message")` (lines 143-215): the normalized payload, when
accepted, is pushed into the window; `now` is the `Date.now()` reading. -/
def onMessage (now : ℕ) (payload : String) (s : MqttState) : MqttState :=
  match messageHandler payload with
  | some vs =>
    { s with dataPoints := pushPoint s.dataPoints { timestamp := now, values := vs } }
  | none => s

/-- `connectMqtt` (lines 89-266).  The two readiness guards (lines 90-97)
report a "not ready" toast to the caller — second component `true` — and
mutate nothing.  Otherwise an existing connected client is torn down
first (lines 99-103; its teardown events are delivered under the
`manualDisconnect` flag and at most normalize the status, which the
resets below overwrite, so only the net effect is modelled), the state is
reset for the new session (lines 104-109), and the client is created.
`connectOk = false` models `mqtt.connect` throwing synchronously, handled
by the catch block of lines 255-265. -/
def connectMqtt (_v : ConnectFormValues) (connectOk : Bool) (s : MqttState) :
    MqttState × Bool :=
  if ¬ s.moduleLoaded then (s, true)
  else if ¬ s.connectAvailable then (s, true)
  else
    let s1 := { s with hasClient := false, clientConnected := false }
    let s2 := { s1 with connectionStatus := .connecting
                        dataPoints := []
                        currentTopic := some HARDCODED_TOPIC
                        manualDisconnect := false }
    if connectOk then ({ s2 with hasClient := true }, false)
    else ({ s2 with connectionStatus := .error, hasClient := false }, false)

/-- First phase of `disconnectMqtt` on an existing client (line 270): the
`manualDisconnect` flag is raised before `client.end(true, resolve)`. -/
def disconnectBegin (s : MqttState) : MqttState :=
  { s with manualDisconnect := true }

/-- Final phase of `disconnectMqtt` (lines 273-278), run after the
transport confirms closure: status `disconnected`, client and topic
cleared, window emptied, flag lowered. -/
def disconnectFinish (s : MqttState) : MqttState :=
  { s with connectionStatus := .disconnected
           hasClient := false
           clientConnected := false
           currentTopic := none
           dataPoints := []
           manualDisconnect := false }

/-- `disconnectMqtt` (lines 268-282) as a single step: with a client the
two phases run back to back (teardown events delivered in between are
modelled separately, see the manual-disconnect theorem); without one the
status is merely normalized to `disconnected` (lines 279-281). -/
def disconnectMqtt (s : MqttState) : MqttState :=
  if s.hasClient then disconnectFinish (disconnectBegin s)
  else if s.connectionStatus ≠ .disconnected then
    { s with connectionStatus := .disconnected }
  else s

/-- One step of the single-writer event stream: controller calls
(`connect`, `disconnect`), the module-loaded effect, and the transport
session events. -/
inductive MqttOp where
  | moduleReady
  | connect (v : ConnectFormValues) (ok : Bool)
  | disconnect
  | evConnect
  | evSubAck (ok : Bool)
  | evError
  | evClose
  | evOffline
  | evReconnect
  | evMessage (now : ℕ) (payload : String)
deriving DecidableEq, Repr

/-- Interpretation of one event against the provider state. -/
def applyOp (s : MqttState) : MqttOp → MqttState
  | .moduleReady => { s with moduleLoaded := true, connectAvailable := true }
  | .connect v ok => (connectMqtt v ok s).1
  | .disconnect => disconnectMqtt s
  | .evConnect => onConnect s
  | .evSubAck ok => onSubAck ok s
  | .evError => onError s
  | .evClose => onClose s
  | .evOffline => onOffline s
  | .evReconnect => onReconnect s
  | .evMessage now p => onMessage now p s

/-- The state after a sequence of events from the initial state. -/
def runOps (ops : List MqttOp) : MqttState := ops.foldl applyOp initialState

/-- The teardown events a closing transport can emit. -/
inductive TeardownEv where
  | close
  | error
deriving DecidableEq, Repr

/-- Interpretation of one teardown event. -/
def teardownStep (t : MqttState) (e : TeardownEv) : MqttState :=
  match e with
  | .close => onClose t
  | .error => onError t

/-- Delivery of teardown events while a manual disconnect is in flight. -/
def applyTeardown (s : MqttState) (evs : List TeardownEv) : MqttState :=
  evs.foldl teardownStep s

theorem mem_insertByIndex (x y : String × Json) (l : List (String × Json)) :
    x ∈ insertByIndex y l ↔ x = y ∨ x ∈ l := by
  induction l with
  | nil => simp [insertByIndex]
  | cons z zs ih =>
    unfold insertByIndex
    split
    · simp [List.mem_cons]
    · simp only [List.mem_cons, ih]
      tauto

theorem mem_foldl_insertByIndex (l : List (String × Json)) :
    ∀ (acc : List (String × Json)) (x : String × Json),
      x ∈ l.foldl (fun a kv => insertByIndex kv a) acc ↔ x ∈ acc ∨ x ∈ l := by
  induction l with
  | nil => simp
  | cons z zs ih =>
    intro acc x
    rw [List.foldl_cons, ih, mem_insertByIndex]
    simp only [List.mem_cons]
    tauto

theorem mem_orderKeys (x : String × Json) (fs : List (String × Json)) :
    x ∈ orderKeys fs ↔ x ∈ fs := by
  unfold orderKeys
  rw [List.mem_append, mem_foldl_insertByIndex]
  simp only [List.mem_filter, List.not_mem_nil, false_or, Bool.not_eq_eq_eq_not,
    Bool.not_true]
  cases h : isArrayIndexKey x.1 <;> simp [h]

theorem mem_sensorFields_not_nan (t : Json) (p : String × JsNum)
    (hp : p ∈ sensorFields t) : p.2.isNaN = false := by
  unfold sensorFields at hp
  rw [List.mem_filterMap] at hp
  obtain ⟨kv, _, hm⟩ := hp
  cases hc : coerce kv.2 <;> rw [hc] at hm <;> simp_all <;> subst hm <;> rfl

theorem rawFallback_not_nan (msg : String) (fields : List (String × JsNum))
    (h : rawFallback msg = some fields) : ∀ p ∈ fields, p.2.isNaN = false := by
  intro p hp
  unfold rawFallback at h
  cases hf : parseFloat msg <;> rw [hf] at h
  case nan => cases h
  all_goals
    rw [Option.some.injEq] at h
    rw [← h, List.mem_singleton] at hp
    subst hp
    rfl

theorem jsonBranch_not_nan (j : Json) (fields : List (String × JsNum))
    (h : jsonBranch j = .ok (some fields)) : ∀ p ∈ fields, p.2.isNaN = false := by
  intro p hp
  unfold jsonBranch at h
  split at h
  · split at h
    · cases h
    · rw [Except.ok.injEq, Option.some.injEq] at h
      exact mem_sensorFields_not_nan _ p (h ▸ hp)
  · split at h
    · cases h
    · cases h
    · split at h
      · cases h
      · rw [Except.ok.injEq, Option.some.injEq] at h
        rw [← h, List.mem_singleton] at hp
        subst hp
        rfl

theorem messageHandler_fields_not_nan (msg : String)
    (fields : List (String × JsNum)) (h : messageHandler msg = some fields) :
    ∀ p ∈ fields, p.2.isNaN = false := by
  unfold messageHandler at h
  split at h
  · rename_i j hj
    split at h
    · rename_i r hb
      subst h
      exact jsonBranch_not_nan j fields hb
    · exact rawFallback_not_nan msg fields h
  · exact rawFallback_not_nan msg fields h

theorem eq_snd_of_nodup_keys (l : List (String × Json))
    (h : (l.map Prod.fst).Nodup) (k : String) (v w : Json)
    (h1 : (k, v) ∈ l) (h2 : (k, w) ∈ l) : v = w := by
  induction l with
  | nil => cases h1
  | cons x rest ih =>
    rw [List.map_cons, List.nodup_cons] at h
    rw [List.mem_cons] at h1 h2
    rcases h1 with h1 | h1 <;> rcases h2 with h2 | h2
    · cases h1.trans h2.symm
      rfl
    · subst h1
      exact absurd (List.mem_map_of_mem Prod.fst h2) h.1
    · subst h2
      exact absurd (List.mem_map_of_mem Prod.fst h1) h.1
    · exact ih h.2 h1 h2

theorem applyTeardown_inv (evs : List TeardownEv) :
    ∀ s : MqttState, s.manualDisconnect = true → s.connectionStatus ≠ .error →
      (applyTeardown s evs).manualDisconnect = true ∧
        (applyTeardown s evs).connectionStatus ≠ .error := by
  induction evs with
  | nil => intro s h1 h2; exact ⟨h1, h2⟩
  | cons e rest ih =>
    intro s h1 h2
    have hstep : (teardownStep s e).manualDisconnect = true ∧
        (teardownStep s e).connectionStatus ≠ .error := by
      cases e
      · refine ⟨?_, ?_⟩ <;> unfold teardownStep onClose <;> split_ifs <;> simp_all
      · refine ⟨?_, ?_⟩ <;> unfold teardownStep onError <;> split_ifs <;> simp_all
    exact ih (teardownStep s e) hstep.1 hstep.2

/-- Sample connection parameters (their contents are irrelevant to every
property proved below). -/
def sampleValues : ConnectFormValues :=
  { brokerUrl := "ws://broker", username := "u", password := "p" }

/-- A reachable state amid a connection attempt: module loaded, connect
issued, no transport event yet. -/
def sampleConnecting : MqttState := runOps [.moduleReady, .connect sampleValues true]

/-- A reachable connected state. -/
def sampleConnected : MqttState := onConnect sampleConnecting

/-- A reachable connected state with a non-empty Sample Window. -/
def sampleWithData : MqttState :=
  runOps [.moduleReady, .connect sampleValues true, .evConnect, .evMessage 5 ("42.0")]

/-- The invariant behind C10: the exposed topic is absent or the
hardcoded one, and every issued subscription used the hardcoded topic. -/
def topicInv (s : MqttState) : Prop :=
  (s.currentTopic = none ∨ s.currentTopic = some HARDCODED_TOPIC) ∧
    ∀ t ∈ s.subscribeTopics, t = HARDCODED_TOPIC

theorem topicInv_applyOp (s : MqttState) (h : topicInv s) (op : MqttOp) :
    topicInv (applyOp s op) := by
  obtain ⟨h1, h2⟩ := h
  cases op <;>
    simp only [applyOp, connectMqtt, disconnectMqtt, disconnectBegin, disconnectFinish,
      onConnect, onSubAck, onError, onClose, onOffline, onReconnect, onMessage] <;>
    repeat' split
  all_goals refine ⟨?_, ?_⟩
  all_goals
    first
      | exact h2
      | exact h1
      | (simp_all [List.mem_append]
         try exact fun t ht => ht.elim (fun hm => h2 t hm) (fun he => he))

theorem topicInv_runOps (ops : List MqttOp) : topicInv (runOps ops) := by
  have hgen : ∀ s, topicInv s → topicInv (ops.foldl applyOp s) := by
    induction ops with
    | nil => exact fun s hs => hs
    | cons op rest ih => exact fun s hs => ih _ (topicInv_applyOp s hs op)
  exact hgen initialState ⟨Or.inl rfl, by simp [initialState]⟩

/-- C2 counterexample: from a reachable `connecting` state, two
consecutive connect (session-established) events issue TWO subscription
calls, not exactly one — `client.subscribe` sits outside the
`connectionStatusRef.current !== "connected"` guard, so every established
event re-subscribes. -/
theorem duplicate_connect_two_subscribes :
    sampleConnecting.connectionStatus = ConnStatus.connecting ∧
    sampleConnecting.subscribeTopics.length = 0 ∧
    (onConnect (onConnect sampleConnecting)).subscribeTopics.length = 2 ∧
    (onConnect (onConnect sampleConnecting)).subscribeTopics.length ≠ 1 := by
  decide

/-- C2 (amended): two consecutive established events delivered to a
`connecting` session fire the connection-established notification (status
change and toast) exactly once, but issue one subscription call per
event — two in total. -/
theorem duplicate_connect_amended (s : MqttState)
    (h : s.connectionStatus = ConnStatus.connecting) :
    (onConnect (onConnect s)).connectionStatus = ConnStatus.connected ∧
    (onConnect (onConnect s)).connectToasts = s.connectToasts + 1 ∧
    (onConnect (onConnect s)).subscribeTopics
      = s.subscribeTopics ++ [HARDCODED_TOPIC, HARDCODED_TOPIC] := by
  refine ⟨?_, ?_, ?_⟩ <;> simp [onConnect, h]

theorem duplicate_connect_amended_witness :
    (onConnect (onConnect sampleConnecting)).connectionStatus = ConnStatus.connected ∧
    (onConnect (onConnect sampleConnecting)).connectToasts
      = sampleConnecting.connectToasts + 1 ∧
    (onConnect (onConnect sampleConnecting)).subscribeTopics
      = sampleConnecting.subscribeTopics ++ [HARDCODED_TOPIC, HARDCODED_TOPIC] :=
  duplicate_connect_amended sampleConnecting (by decide)

/-- C3 counterexample: in a reachable `connecting` state with no manual
disconnect in flight and no prior error, a close event yields
`disconnected`, not `error` — the close handler collapses the
`connecting` and `connected` cases into `disconnected`. -/
theorem close_while_connecting_counterexample :
    sampleConnecting.connectionStatus = ConnStatus.connecting ∧
    sampleConnecting.manualDisconnect = false ∧
    (onClose sampleConnecting).connectionStatus = ConnStatus.disconnected ∧
    (onClose sampleConnecting).connectionStatus ≠ ConnStatus.error := by
  decide

/-- C3 (amended): if the session is `connecting` and the transport reports
closed, with `manualDisconnect` not set (hence no prior `error`, the
status being `connecting`), the resulting status is `disconnected`. -/
theorem close_while_connecting_disconnected (s : MqttState)
    (h1 : s.connectionStatus = ConnStatus.connecting)
    (h2 : s.manualDisconnect = false) :
    (onClose s).connectionStatus = ConnStatus.disconnected := by
  simp [onClose, h1, h2]

theorem close_while_connecting_disconnected_witness :
    (onClose sampleConnecting).connectionStatus = ConnStatus.disconnected :=
  close_while_connecting_disconnected sampleConnecting (by decide) (by decide)

/-- C4 (code bug): at the claim's example payload the handler emits a
point whose values are exactly the coerced `tftvalue` entries
(`a = 1.5`, the non-numeric `b` dropped) — and nothing else: the
emitted record is the full payload of the push, so the identity field
`device_serial = "D1"` is discarded; the code's `DataPoint` carries no
source-identity field at all, although `real-time-chart.tsx` documents
and requires `DataPoint.deviceSerial`. -/
theorem identity_field_discarded_eval :
    messageHandler ("\x7b\"device_serial\":\"D1\",\"tftvalue\":\x7b\"a\":\"1.5\",\"b\":\"x\"\x7d\x7d")
      = some [(("a"), JsNum.finite (mkRat 3 2))] := by
  decide

/-- C5: once `disconnectMqtt` has raised the `manualDisconnect` flag on an
open session, any sequence of close/fatal-error teardown events — either
order, any number — never drives the status to `error`, and completing
the disconnect leaves the terminal status `disconnected`. -/
theorem manual_disconnect_guard (s : MqttState) (evs : List TeardownEv)
    (_hc : s.hasClient = true) (he : s.connectionStatus ≠ ConnStatus.error) :
    (applyTeardown (disconnectBegin s) evs).connectionStatus ≠ ConnStatus.error ∧
    (disconnectFinish (applyTeardown (disconnectBegin s) evs)).connectionStatus
      = ConnStatus.disconnected :=
  ⟨(applyTeardown_inv evs (disconnectBegin s) rfl he).2, rfl⟩

theorem manual_disconnect_guard_witness :
    (applyTeardown (disconnectBegin sampleConnected)
        [TeardownEv.error, TeardownEv.close]).connectionStatus ≠ ConnStatus.error ∧
    (disconnectFinish (applyTeardown (disconnectBegin sampleConnected)
        [TeardownEv.error, TeardownEv.close])).connectionStatus
      = ConnStatus.disconnected :=
  manual_disconnect_guard sampleConnected [TeardownEv.error, TeardownEv.close]
    (by decide) (by decide)

/-- C6 counterexample: the string value `"Infinity"` does not parse as a
finite number, yet the handler stores it as the non-finite value
`Infinity` (it passes the `isNaN` filter), refuting "never stored as a
non-finite value" (it is also not dropped and not zero). -/
theorem infinity_value_stored :
    messageHandler ("\x7b\"tftvalue\":\x7b\"a\":\"Infinity\"\x7d\x7d")
      = some [(("a"), JsNum.inf)] ∧
    JsNum.inf.isNaN = false ∧
    JsNum.inf ≠ JsNum.finite 0 := by
  decide

/-- C6 (amended): numeric coercion is total (the handler is a total
function; the try/catch is modelled and malformed input yields no
sample), a value stored in an emitted sample is never NaN, and an entry
whose coercion fails (yields NaN) is absent from the multi-field result —
never stored as zero.  Entries coercing to the non-finite values
`Infinity`/`-Infinity` are, however, stored (see the counterexample). -/
theorem coercion_total_nan_absent :
    (∀ (msg : String) (fields : List (String × JsNum)),
      messageHandler msg = some fields → ∀ p ∈ fields, p.2.isNaN = false) ∧
    (∀ (t : List (String × Json)) (k : String) (v : Json),
      (t.map Prod.fst).Nodup → (k, v) ∈ t → (coerce v).isNaN = true →
        k ∉ (sensorFields (Json.obj t)).map Prod.fst) := by
  constructor
  · exact fun msg fields h => messageHandler_fields_not_nan msg fields h
  · intro t k v hnodup hmem hnan hk
    rw [List.mem_map] at hk
    obtain ⟨p, hp, hpk⟩ := hk
    unfold sensorFields forInEntries at hp
    rw [List.mem_filterMap] at hp
    obtain ⟨kv, hkv, hm⟩ := hp
    have hkvt : kv ∈ t := (mem_orderKeys kv t).mp hkv
    cases hc : coerce kv.2 <;> rw [hc] at hm
    case nan => cases hm
    all_goals
      rw [Option.some.injEq] at hm
      have hk1 : kv.1 = k := by rw [← hm] at hpk; exact hpk
      have hkt : (k, kv.2) ∈ t := by rw [← hk1]; exact hkvt
      have hv : kv.2 = v := eq_snd_of_nodup_keys t hnodup k kv.2 v hkt hmem
      rw [← hv, hc] at hnan
      cases hnan

/-- C6 witness: a concrete emitted field is non-NaN, and the non-numeric
entry `b` of the C4 example payload is absent from the coerced fields. -/
theorem coercion_total_nan_absent_witness :
    (("value"), JsNum.finite 7).2.isNaN = false ∧
    ("b") ∉ (sensorFields (Json.obj
      [(("a"), Json.str ("1.5")), (("b"), Json.str ("x"))])).map Prod.fst :=
  ⟨coercion_total_nan_absent.1 ("\x7b\"value\": 7\x7d") [(("value"), JsNum.finite 7)]
      (by decide) (("value"), JsNum.finite 7) (List.Mem.head _),
    coercion_total_nan_absent.2 [(("a"), Json.str ("1.5")), (("b"), Json.str ("x"))]
      ("b") (Json.str ("x")) (by decide) (List.Mem.tail _ (List.Mem.head _))
      (by decide)⟩

/-- C7: payload text `"42.0"` yields a sample with the single field
`value = 42.0` (the code's `DataPoint` carries no identity field,
matching `sourceId = ""` for a payload without identity), and payload
`"hello"` (not JSON, not numeric) yields no sample. -/
theorem scalar_and_reject_fallbacks :
    messageHandler ("42.0") = some [(("value"), JsNum.finite 42)] ∧
    messageHandler ("hello") = none := by
  decide

/-- C8: with the transport library ready, `connectMqtt` leaves a state
with status `connecting`, an empty Sample Window, the hardcoded topic
exposed, and the `manualDisconnect` flag cleared — all before any message
event of the new session can deliver a sample. -/
theorem connect_resets_session_state (s : MqttState) (v : ConnectFormValues)
    (h1 : s.moduleLoaded = true) (h2 : s.connectAvailable = true) :
    ((connectMqtt v true s).1).connectionStatus = ConnStatus.connecting ∧
    ((connectMqtt v true s).1).dataPoints = [] ∧
    ((connectMqtt v true s).1).manualDisconnect = false ∧
    ((connectMqtt v true s).1).currentTopic = some HARDCODED_TOPIC := by
  simp [connectMqtt, h1, h2]

theorem connect_resets_session_state_witness :
    ((connectMqtt sampleValues true sampleWithData).1).connectionStatus
      = ConnStatus.connecting ∧
    ((connectMqtt sampleValues true sampleWithData).1).dataPoints = [] ∧
    ((connectMqtt sampleValues true sampleWithData).1).manualDisconnect = false ∧
    ((connectMqtt sampleValues true sampleWithData).1).currentTopic
      = some HARDCODED_TOPIC :=
  connect_resets_session_state sampleWithData sampleValues (by decide) (by decide)

/-- C9: when the transport library is unavailable (module not loaded, or
its connect function missing), `connectMqtt` reports "not ready" to the
caller (second component `true`) and returns the state entirely
unchanged — status, window, topic and session handle included. -/
theorem connect_not_ready_no_mutation (s : MqttState) (v : ConnectFormValues)
    (ok : Bool) (h : s.moduleLoaded = false ∨ s.connectAvailable = false) :
    connectMqtt v ok s = (s, true) := by
  rcases h with h | h
  · simp [connectMqtt, h]
  · by_cases hm : s.moduleLoaded <;> simp [connectMqtt, h, hm]

theorem connect_not_ready_no_mutation_witness :
    connectMqtt sampleValues true initialState = (initialState, true) :=
  connect_not_ready_no_mutation initialState sampleValues true (by decide)

/-- Transport-session events, as opposed to controller calls: these never
touch the exposed topic. -/
def MqttOp.isTransportEvent : MqttOp → Bool
  | .evConnect => true
  | .evSubAck _ => true
  | .evError => true
  | .evClose => true
  | .evOffline => true
  | .evReconnect => true
  | .evMessage _ _ => true
  | _ => false

/-- C10: along every event sequence from the initial state the exposed
`currentTopic` is `none` or the hardcoded `"/TFT/Response"` and every
subscription ever issued used `"/TFT/Response"`; a successful connect —
whatever the supplied parameters, which carry no topic — exposes exactly
the hardcoded topic, transport events never change the exposed topic
(so it stays the hardcoded one for the session lifetime), and a manual
disconnect on an open session resets it to `none`. -/
theorem hardcoded_topic_only :
    (∀ ops : List MqttOp,
      ((runOps ops).currentTopic = none ∨
        (runOps ops).currentTopic = some HARDCODED_TOPIC) ∧
      ∀ t ∈ (runOps ops).subscribeTopics, t = HARDCODED_TOPIC) ∧
    (∀ (s : MqttState) (v : ConnectFormValues),
      s.moduleLoaded = true → s.connectAvailable = true →
        ((connectMqtt v true s).1).currentTopic = some HARDCODED_TOPIC) ∧
    (∀ (s : MqttState) (op : MqttOp), op.isTransportEvent = true →
      (applyOp s op).currentTopic = s.currentTopic) ∧
    (∀ s : MqttState, s.hasClient = true → (disconnectMqtt s).currentTopic = none) := by
  refine ⟨fun ops => topicInv_runOps ops, fun s v h1 h2 => ?_,
    fun s op hop => ?_, fun s h => ?_⟩
  · simp [connectMqtt, h1, h2]
  · cases op <;>
      simp only [applyOp, onConnect, onSubAck, onError, onClose, onOffline,
        onReconnect, onMessage] <;>
      first
        | ((repeat' split) <;> rfl)
        | cases hop
  · simp [disconnectMqtt, disconnectBegin, disconnectFinish, h]

theorem hardcoded_topic_only_witness :
    ((connectMqtt sampleValues true (runOps [MqttOp.moduleReady])).1).currentTopic
      = some HARDCODED_TOPIC ∧
    (applyOp sampleConnected MqttOp.evClose).currentTopic
      = sampleConnected.currentTopic ∧
    (disconnectMqtt sampleConnected).currentTopic = none ∧
    ∀ t ∈ (runOps [MqttOp.moduleReady]).subscribeTopics, t = HARDCODED_TOPIC :=
  ⟨hardcoded_topic_only.2.1 (runOps [MqttOp.moduleReady]) sampleValues
      (by decide) (by decide),
    hardcoded_topic_only.2.2.1 sampleConnected MqttOp.evClose (by decide),
    hardcoded_topic_only.2.2.2 sampleConnected (by decide),
    (hardcoded_topic_only.1 [MqttOp.moduleReady]).2⟩

end Studio
